import Mathlib

/-!
Verification of the RaceEngineer analysis engine
(src/backend-api/core/analysis_engine.py and
src/backend-api/core/f1_processor.py) against its specification.

The pandas DataFrames are embedded as lists of records; float values are
embedded as rationals (no NaN arithmetic is exercised by the theorems:
optional columns that may be NaT/NaN are embedded as Option values).
Lap numbers and track positions, integral ranks in the data model, are
embedded as integers, so the int(...) casts of the code are identities.
-/

namespace RaceEngineer

/-- One row of the session lap DataFrame.  Fields mirror the pandas
columns used by the analysis engine: Driver, LapNumber, Time (session
cumulative time in seconds, NaT embedded as none), Position, LapTime
(seconds, NaT as none), PitInTime, PitOutTime (their presence is all the
code tests), TrackStatus, IsAccurate, Compound, TyreLife. -/
structure LapRow where
  driver : String
  lapNumber : ℤ
  time : Option ℚ
  position : Option ℤ
  lapTime : Option ℚ
  pitInTime : Option ℚ
  pitOutTime : Option ℚ
  trackStatus : String
  isAccurate : Bool
  compound : String
  tyreLife : ℚ
deriving DecidableEq

/-- Output record of calculate_fuel_correction: keys lap, actual,
corrected, fuelLoad. -/
structure FuelEntry where
  lap : ℤ
  actual : ℚ
  corrected : ℚ
  fuelLoad : ℚ
deriving DecidableEq

/-- Lap filter of calculate_fuel_correction (line 84 of
analysis_engine.py): LapTime present, PitInTime and PitOutTime absent. -/
def validFuelLaps (laps : List LapRow) : List LapRow :=
  laps.filter (fun r => r.lapTime.isSome && r.pitInTime.isNone && r.pitOutTime.isNone)

/-- Loop body of calculate_fuel_correction (lines 86-103): the fuel math
for one lap row. -/
def fuelEntry (start_fuel_kg burn_rate_kg_lap time_loss_sec_kg : ℚ) (r : LapRow) : FuelEntry :=
  let actual_time := r.lapTime.getD 0
  let fuel_burned := (r.lapNumber : ℚ) * burn_rate_kg_lap
  let remaining_fuel := max 0 (start_fuel_kg - fuel_burned)
  let fuel_effect := remaining_fuel * time_loss_sec_kg
  { lap := r.lapNumber
    actual := actual_time
    corrected := actual_time - fuel_effect
    fuelLoad := remaining_fuel }

/-- AnalysisEngine.calculate_fuel_correction (lines 67-105 of
analysis_engine.py). -/
def calculate_fuel_correction (laps : List LapRow)
    (start_fuel_kg : ℚ := 110) (burn_rate_kg_lap : ℚ := 9/5)
    (time_loss_sec_kg : ℚ := 7/200) : List FuelEntry :=
  (validFuelLaps laps).map (fuelEntry start_fuel_kg burn_rate_kg_lap time_loss_sec_kg)

/-- A single-driver lap row used by the concrete fuel scenario of the
spec: lap 1, actual lap time 90.0 s, no pit events. -/
def demoFuelLap : LapRow :=
  { driver := "VER", lapNumber := 1, time := some 90, position := some 1,
    lapTime := some 90, pitInTime := none, pitOutTime := none,
    trackStatus := "1", isAccurate := true, compound := "SOFT", tyreLife := 1 }

/-- Output record of calculate_race_gaps: keys lap, gap, position.  The
gap field is an Option because the code emits float(nan) when the leader
row carries a NaT cumulative time; none embeds that NaN. -/
structure GapEntry where
  lap : ℤ
  gap : Option ℚ
  position : Option ℤ
deriving DecidableEq

/-- Row order produced by laps.sort_values applied to Driver and
LapNumber (line 19 of analysis_engine.py): lexicographic on the pair. -/
def sortByDriverLap (laps : List LapRow) : List LapRow :=
  List.insertionSort
    (fun a b => a.driver < b.driver ∨ (a.driver = b.driver ∧ a.lapNumber ≤ b.lapNumber)) laps

/-- Leader lookup (lines 26 and 46-49): the row holding Position 1 at the
given lap number.  The code keeps every such row and reads the value
through a unique index; the embedding takes the first match, which under
the one-leader-per-lap precondition of the ``.loc`` scalar read is the
only match. -/
def leaderRow (laps : List LapRow) (n : ℤ) : Option LapRow :=
  (laps.filter (fun r => r.position == some 1 && r.lapNumber == n)).head?

/-- Per-driver loop body of calculate_race_gaps (lines 39-60): iterate
the driver rows in lap order (the pivot index is sorted), drop rows with
a missing cumulative time (dropna), skip lap numbers absent from the
leader index, and emit lap, gap to leader, and own position. -/
def driverGaps (sorted : List LapRow) (d : String) : List GapEntry :=
  (sorted.filter (fun r => r.driver == d)).filterMap (fun r =>
    match r.time with
    | none => none
    | some t =>
      match leaderRow sorted r.lapNumber with
      | none => none
      | some lr =>
        some { lap := r.lapNumber
               gap := lr.time.map (fun lt => t - lt)
               position := r.position })

/-- AnalysisEngine.calculate_race_gaps (lines 12-64 of
analysis_engine.py).  A requested driver absent from the pivot columns
(no row in the table) is skipped. -/
def calculate_race_gaps (laps : List LapRow) (drivers : List String) :
    List (String × List GapEntry) :=
  let sorted := sortByDriverLap laps
  drivers.filterMap (fun d =>
    if (sorted.filter (fun r => r.driver == d)).isEmpty then none
    else some (d, driverGaps sorted d))

/-- The gap sequence the result carries for one driver: the looked-up
list, or the empty list when the driver has no entry at all. -/
def gapsFor (result : List (String × List GapEntry)) (d : String) : List GapEntry :=
  ((result.lookup d).getD [])

/-- Maximum of a Series of rationals (pandas .max()); 0 on the empty
list, which no theorem exercises. -/
def listMax : List ℚ → ℚ
  | [] => 0
  | x :: xs => xs.foldl max x

/-- Sort a list of (distance, value) pairs by distance, as
DataFrame.sort_values on the Distance column and the internal argsort of
scipy interp1d both do. -/
def sortByDist (pts : List (ℚ × ℚ)) : List (ℚ × ℚ) :=
  List.insertionSort (fun p q => p.1 ≤ q.1) pts

/-- Linear interpolation with linear extrapolation from the boundary
segments, the behaviour of scipy interp1d with kind linear and
fill_value extrapolate, on a distance-sorted sample list.  Lists shorter
than two points make interp1d raise; the embedding totalises them. -/
def interp1devalSorted : List (ℚ × ℚ) → ℚ → ℚ
  | [], _ => 0
  | [p], _ => p.2
  | p :: q :: rest, z =>
    if z ≤ q.1 ∨ rest = [] then p.2 + (z - p.1) * (q.2 - p.2) / (q.1 - p.1)
    else interp1devalSorted (q :: rest) z

/-- Distance-to-time interpolant built by calculate_ghost_delta (lines
128-129 of analysis_engine.py): interp1d sorts its x input internally. -/
def interp1dLin (pts : List (ℚ × ℚ)) (z : ℚ) : ℚ :=
  interp1devalSorted (sortByDist pts) z

/-- np.arange(0, stop, 5): multiples of 5 strictly below stop. -/
def arange5 (stop : ℚ) : List ℚ :=
  (List.range (if stop ≤ 0 then 0 else (Rat.ceil (stop / 5)).toNat)).map
    (fun (k : ℕ) => (k : ℚ) * 5)

/-- One telemetry trace as calculate_ghost_delta consumes it: whether
the Distance column is present, and the (Distance, Time-in-seconds)
samples. -/
structure TelemetryTrace where
  hasDistance : Bool
  samples : List (ℚ × ℚ)
deriving DecidableEq

/-- Output of calculate_ghost_delta: keys distance and delta. -/
structure GhostDelta where
  distance : List ℚ
  delta : List ℚ
deriving DecidableEq

/-- Common distance axis of calculate_ghost_delta (lines 117-118):
np.arange from 0 to the smaller of the two maximum distances, at 5 m
resolution. -/
def commonAxis (a b : TelemetryTrace) : List ℚ :=
  arange5 (min (listMax (a.samples.map (·.1))) (listMax (b.samples.map (·.1))))

/-- AnalysisEngine.calculate_ghost_delta (lines 107-140 of
analysis_engine.py).  none embeds the empty dict returned when either
trace misses its Distance column. -/
def calculate_ghost_delta (telemetry_a telemetry_b : TelemetryTrace) : Option GhostDelta :=
  if telemetry_a.hasDistance && telemetry_b.hasDistance then
    let common_dist := commonAxis telemetry_a telemetry_b
    let t_a_interp := common_dist.map (interp1dLin telemetry_a.samples)
    let t_b_interp := common_dist.map (interp1dLin telemetry_b.samples)
    some { distance := common_dist
           delta := List.zipWith (fun ta tb => ta - tb) t_a_interp t_b_interp }
  else none

/-- Trace A of the ghost-delta counterexample: 2 s over 10 m. -/
def ghostTraceA : TelemetryTrace := { hasDistance := true, samples := [(0, 0), (10, 2)] }

/-- Trace B of the ghost-delta counterexample: 1 s over 10 m, so B is
faster than A everywhere after the start. -/
def ghostTraceB : TelemetryTrace := { hasDistance := true, samples := [(0, 0), (10, 1)] }

/-- np.median: sort ascending, middle element for odd length, mean of
the two middle elements for even length.  The empty list, where numpy
yields NaN, is totalised to 0; downstream the code only compares the
value with 0, and NaN < 0 and 0 < 0 are both false, so the embedding
agrees with the code on every path the theorems take. -/
def medianQ (l : List ℚ) : ℚ :=
  let s := List.insertionSort (fun a b => a ≤ b) l
  if s.length = 0 then 0
  else if s.length % 2 = 1 then s.getD (s.length / 2) 0
  else (s.getD (s.length / 2 - 1) 0 + s.getD (s.length / 2) 0) / 2

/-- All pairwise slopes between points with distinct x, one slope per
unordered pair, as scipy.stats.theilslopes collects them before taking
the median. -/
def pairSlopes : List (ℚ × ℚ) → List ℚ
  | [] => []
  | p :: ps =>
    (ps.filterMap (fun q => if q.1 = p.1 then none else some ((q.2 - p.2) / (q.1 - p.1))))
      ++ pairSlopes ps

/-- Point estimate of scipy.stats.theilslopes on points (x, y): the
median of all pairwise slopes.  The confidence-level argument 0.90 of
the code only shapes the confidence bounds, which the code discards. -/
def theilSlope (pts : List (ℚ × ℚ)) : ℚ :=
  medianQ (pairSlopes pts)

/-- Strict lap filter of calculate_tyre_degradation (lines 150-155 of
analysis_engine.py): green-flag track status, accurate, no pit-in or
pit-out. -/
def cleanLaps (laps : List LapRow) : List LapRow :=
  laps.filter (fun r =>
    r.trackStatus == "1" && r.isAccurate && r.pitInTime.isNone && r.pitOutTime.isNone)

/-- The FuelCorrected column (lines 162-163): lap time plus
LapNumber times the fixed penalty 1.7 kg/lap times 0.035 s/kg.  Clean
laps are accurate laps and accurate laps carry a lap time, so the
default 0 of getD is never read by the theorems. -/
def fuelCorrectedTime (r : LapRow) : ℚ :=
  r.lapTime.getD 0 + (r.lapNumber : ℚ) * (17/10 * (35/1000))

/-- The global Theil-Sen trend of the whole field (lines 171-176):
FuelCorrected time against LapNumber over every clean lap. -/
def globalSlope (laps : List LapRow) : ℚ :=
  theilSlope ((cleanLaps laps).map (fun r => ((r.lapNumber : ℚ), fuelCorrectedTime r)))

/-- Track evolution rate per lap (lines 179-181): the magnitude of the
global slope when it is negative, otherwise zero. -/
def trackEvoPerLap (laps : List LapRow) : ℚ :=
  if globalSlope laps < 0 then |globalSlope laps| else 0

/-- The FullyCorrected column (line 185): FuelCorrected plus LapNumber
times the track evolution rate. -/
def fullyCorrectedTime (laps : List LapRow) (r : LapRow) : ℚ :=
  fuelCorrectedTime r + (r.lapNumber : ℚ) * trackEvoPerLap laps

/-- Output record of calculate_tyre_degradation entries: keys driver,
deg_per_lap, confidence (placeholder 1.0), laps_analyzed. -/
structure DegEntry where
  driver : String
  deg_per_lap : ℚ
  confidence : ℚ
  laps_analyzed : ℕ
deriving DecidableEq

/-- First-occurrence deduplication, the order pandas Series.unique
returns. -/
def uniqueOrder (l : List String) : List String :=
  l.foldl (fun acc x => if x ∈ acc then acc else acc ++ [x]) []

/-- Stable ascending sort on deg_per_lap (line 218). -/
def sortByDeg (l : List DegEntry) : List DegEntry :=
  List.insertionSort (fun e1 e2 => e1.deg_per_lap ≤ e2.deg_per_lap) l

/-- Per-driver, per-compound entry of calculate_tyre_degradation (lines
191-214): the clean laps of the driver on the compound, at least 4 of
them, regressed with Theil-Sen as FullyCorrected time against TyreLife. -/
def degEntryFor (laps : List LapRow) (comp d : String) : Option DegEntry :=
  let c_laps := (cleanLaps laps).filter (fun r => r.driver == d && r.compound == comp)
  if c_laps.length < 4 then none
  else
    some { driver := d
           deg_per_lap := theilSlope (c_laps.map (fun r => (r.tyreLife, fullyCorrectedTime laps r)))
           confidence := 1
           laps_analyzed := c_laps.length }

/-- AnalysisEngine.calculate_tyre_degradation (lines 142-220 of
analysis_engine.py).  The empty list embeds the bare empty dict the code
returns when no clean lap exists; otherwise the five fixed compound keys
each carry the per-driver entries, appended in driver-first-occurrence
order and then sorted ascending by deg_per_lap. -/
def calculate_tyre_degradation (laps : List LapRow) : List (String × List DegEntry) :=
  let clean := cleanLaps laps
  if clean.isEmpty then []
  else
    let drivers := uniqueOrder (clean.map (·.driver))
    ["SOFT", "MEDIUM", "HARD", "INTERMEDIATE", "WET"].map (fun comp =>
      (comp, sortByDeg (drivers.filterMap (degEntryFor laps comp))))

/-- One telemetry sample of F1Processor.get_theoretical_best_lap:
cumulative Distance, Time in seconds, and the X/Y positional channels
(meaningful only when the series carries them). -/
structure TelSample where
  dist : ℚ
  time : ℚ
  x : ℚ
  y : ℚ
deriving DecidableEq

/-- One telemetry series: whether the X positional column is present,
and the samples. -/
structure Telemetry where
  hasXY : Bool
  samples : List TelSample
deriving DecidableEq

/-- One lap as get_theoretical_best_lap consumes it: the LapTime (NaT as
none) and the result of lap.get_telemetry (none embeds the call
raising). -/
structure TBLap where
  lapTime : Option ℚ
  telemetry : Option Telemetry
deriving DecidableEq

/-- The (Distance, Time) channel pairs of a telemetry series. -/
def telPairs (t : Telemetry) : List (ℚ × ℚ) :=
  t.samples.map (fun s => (s.dist, s.time))

/-- Maximum recorded distance of a telemetry series (line 1077 of
f1_processor.py). -/
def maxDistance (t : Telemetry) : ℚ :=
  listMax (t.samples.map (·.dist))

/-- The 26 mini-sector boundaries (lines 1080-1110): multiples of
max distance over 25, from 0 to the maximum distance of the reference
telemetry. -/
def tbBoundaries (ref_tel : Telemetry) : List ℚ :=
  (List.range 26).map (fun (i : ℕ) => (i : ℚ) * (maxDistance ref_tel / 25))

/-- np.interp on a distance-sorted sample list: clamp to the boundary
values outside the sampled range, linear interpolation inside.  numpy
raises on an empty list; the embedding totalises it to 0. -/
def npInterp : List (ℚ × ℚ) → ℚ → ℚ
  | [], _ => 0
  | [p], _ => p.2
  | p :: q :: rest, z =>
    if z ≤ p.1 then p.2
    else if z ≤ q.1 then p.2 + (z - p.1) * (q.2 - p.2) / (q.1 - p.1)
    else npInterp (q :: rest) z

/-- np.diff: consecutive differences. -/
def diffList : List ℚ → List ℚ
  | [] => []
  | [_] => []
  | x :: y :: rest => (y - x) :: diffList (y :: rest)

/-- Per-lap mini-sector durations (lines 1115-1119): evaluate the
distance-to-time interpolant at every boundary and difference
consecutive evaluations. -/
def sectorRow (bounds : List ℚ) (pts : List (ℚ × ℚ)) : List ℚ :=
  diffList (bounds.map (npInterp pts))

/-- The usable telemetries (lines 1090-1107): laps whose get_telemetry
succeeded with a non-empty series, each sorted by Distance before
interpolation. -/
def validTelemetries (d_laps : List TBLap) : List (List (ℚ × ℚ)) :=
  d_laps.filterMap (fun l =>
    l.telemetry.bind (fun t =>
      if t.samples.isEmpty then none else some (sortByDist (telPairs t))))

/-- Column-wise minimum of a matrix given as rows, np.min with axis 0. -/
def colMin : List (List ℚ) → List ℚ
  | [] => []
  | r :: rs => rs.foldl (List.zipWith min) r

/-- Theoretical best lap time (lines 1125-1127): sum of the column-wise
per-sector minima over the usable laps. -/
def theoreticalTime (d_laps : List TBLap) (ref_tel : Telemetry) : ℚ :=
  (colMin ((validTelemetries d_laps).map (sectorRow (tbBoundaries ref_tel)))).sum

/-- Per-sector durations of the reference lap (lines 1130-1134),
computed from the reference telemetry as obtained, without the sort the
per-lap loop applies. -/
def refSectorTimes (ref_tel : Telemetry) : List ℚ :=
  sectorRow (tbBoundaries ref_tel) (telPairs ref_tel)

/-- Actual best lap time (line 1134): sum of the reference per-sector
durations. -/
def actualTime (ref_tel : Telemetry) : ℚ :=
  (refSectorTimes ref_tel).sum

/-- One track-map segment of the visualization payload (lines
1143-1160). -/
structure TBSegment where
  sector_index : ℕ
  x : List ℚ
  y : List ℚ
  time_lost : ℚ
  pct_lost : ℚ
deriving DecidableEq

/-- Track-map segments (lines 1143-1160): the reference samples falling
in each mini-sector distance range, with the per-sector time lost and
its share of the reference duration. -/
def tbSegments (ref_tel : Telemetry) (deltas ref_sec : List ℚ) : List TBSegment :=
  (List.range 25).filterMap (fun (i : ℕ) =>
    let d_start := (i : ℚ) * (maxDistance ref_tel / 25)
    let d_end := ((i : ℚ) + 1) * (maxDistance ref_tel / 25)
    let pts := ref_tel.samples.filter (fun s => d_start ≤ s.dist && s.dist ≤ d_end)
    if pts.isEmpty then none
    else
      some { sector_index := i + 1
             x := pts.map (·.x)
             y := pts.map (·.y)
             time_lost := deltas.getD i 0
             pct_lost := if 0 < ref_sec.getD i 0 then deltas.getD i 0 / ref_sec.getD i 0 else 0 })

/-- Result of get_theoretical_best_lap: the empty dict, the dict holding
only the No-GPS-data error marker, or the full payload with the timing
outputs and segments. -/
inductive TBResult where
  | empty : TBResult
  | gpsError : TBResult
  | ok (driver : String) (theoretical_best actual_best diff : ℚ)
      (segments : List TBSegment) : TBResult
deriving DecidableEq

/-- Whether a result carries the timing outputs theoretical_best,
actual_best and diff. -/
def TBResult.hasTimingOutputs : TBResult → Bool
  | .ok _ _ _ _ _ => true
  | _ => false

/-- F1Processor.get_theoretical_best_lap (lines 1040-1165 of
f1_processor.py), from the point the external provider has supplied the
data: pick_driver, pick_accurate, pick_wo_box and pick_fastest are
fastf1 calls, embedded as the filtered lap list d_laps together with the
fastest-lap selection passed as the fastest argument, and
lap.get_telemetry is embedded as the telemetry field of each lap. -/
def get_theoretical_best_lap (driver : String) (d_laps : List TBLap)
    (fastest : Option TBLap) : TBResult :=
  match fastest with
  | none => .empty
  | some fastest_lap =>
    match fastest_lap.lapTime with
    | none => .empty
    | some _ =>
      match fastest_lap.telemetry with
      | none => .empty
      | some ref_tel =>
        let valid := validTelemetries d_laps
        if valid.isEmpty then .empty
        else
          let best := colMin (valid.map (sectorRow (tbBoundaries ref_tel)))
          let theoretical_best_time := theoreticalTime d_laps ref_tel
          let ref_sec := refSectorTimes ref_tel
          let actual_best_time := actualTime ref_tel
          let deltas := List.zipWith (fun a b => a - b) ref_sec best
          if ref_tel.hasXY then
            .ok driver theoretical_best_time actual_best_time
              (actual_best_time - theoretical_best_time)
              (tbSegments ref_tel deltas ref_sec)
          else .gpsError

/-- A lap row deep enough into the race that the fuel clamp engages with
the default calibration: lap 100 times 1.8 kg/lap exceeds 110 kg. -/
def demoClampLap : LapRow :=
  { driver := "VER", lapNumber := 100, time := some 9000, position := some 1,
    lapTime := some 92, pitInTime := none, pitOutTime := none,
    trackStatus := "1", isAccurate := true, compound := "HARD", tyreLife := 30 }

/-- Leader row of the concrete gap scenario: position 1 on lap 1. -/
def exLeaderRow : LapRow :=
  { driver := "VER", lapNumber := 1, time := some 90, position := some 1,
    lapTime := some 90, pitInTime := none, pitOutTime := none,
    trackStatus := "1", isAccurate := true, compound := "SOFT", tyreLife := 1 }

/-- Chasing row of the concrete gap scenario: position 2 on lap 1. -/
def exChaserRow : LapRow :=
  { driver := "HAM", lapNumber := 1, time := some 92, position := some 2,
    lapTime := some 92, pitInTime := none, pitOutTime := none,
    trackStatus := "1", isAccurate := true, compound := "SOFT", tyreLife := 1 }

/-- A row at position 2 only, for the leaderless scenario. -/
def exNoLeaderRow : LapRow :=
  { driver := "VER", lapNumber := 1, time := some 90, position := some 2,
    lapTime := some 90, pitInTime := none, pitOutTime := none,
    trackStatus := "1", isAccurate := true, compound := "SOFT", tyreLife := 1 }

/-- A telemetry series without X/Y positional channels: two samples
covering 100 m in 10 s. -/
def exTelNoXY : Telemetry :=
  { hasXY := false, samples := [⟨0, 0, 0, 0⟩, ⟨100, 10, 0, 0⟩] }

/-- A lap whose telemetry misses the positional channels. -/
def exLapNoXY : TBLap :=
  { lapTime := some 10, telemetry := some exTelNoXY }

/-- A telemetry series with X/Y positional channels: two samples
covering 100 m in 10 s. -/
def exTelXY : Telemetry :=
  { hasXY := true, samples := [⟨0, 0, 0, 0⟩, ⟨100, 10, 1, 2⟩] }

/-- A lap whose telemetry carries the positional channels. -/
def exLapXY : TBLap :=
  { lapTime := some 10, telemetry := some exTelXY }

/-- A lap under a non-green track status: it fails the clean-lap filter,
so a table holding only this row has no clean laps. -/
def exDirtyLap : LapRow :=
  { driver := "VER", lapNumber := 1, time := some 90, position := some 1,
    lapTime := some 90, pitInTime := none, pitOutTime := none,
    trackStatus := "4", isAccurate := true, compound := "SOFT", tyreLife := 1 }

/-! ## Theorems -/

/-- If a member of a list satisfies the predicate and is the only member
doing so, it heads the filtered list. -/
theorem head_filter_unique {α : Type} (p : α → Bool) (r : α) :
    ∀ l : List α, r ∈ l → p r = true → (∀ x ∈ l, p x = true → x = r) →
      (l.filter p).head? = some r := by
  intro l
  induction l with
  | nil => intro h; cases h
  | cons a l ih =>
    intro hr hp huniq
    by_cases hpa : p a = true
    · have : a = r := huniq a (List.mem_cons_self a l) hpa
      subst this
      simp [List.filter_cons, hpa]
    · have hra : r ≠ a := fun h => hpa (h ▸ hp)
      have hrl : r ∈ l := by
        rcases List.mem_cons.mp hr with h | h
        · exact absurd h hra
        · exact h
      rw [List.filter_cons, if_neg (by simpa using hpa)]
      exact ih hrl hp (fun x hx => huniq x (List.mem_cons_of_mem a hx))

/-- Looking up a driver present in the requested list, whose row filter
is non-empty, yields exactly its driverGaps list. -/
theorem lookup_race_gaps (sorted : List LapRow) :
    ∀ (drivers : List String) (d : String), d ∈ drivers →
      (sorted.filter (fun r => r.driver == d)).isEmpty = false →
      ((drivers.filterMap (fun d2 =>
          if (sorted.filter (fun r => r.driver == d2)).isEmpty then none
          else some (d2, driverGaps sorted d2))).lookup d) =
        some (driverGaps sorted d) := by
  intro drivers
  induction drivers with
  | nil => intro d hd; cases hd
  | cons a ds ih =>
    intro d hd hne
    rw [List.filterMap_cons]
    by_cases ha : (sorted.filter (fun r => r.driver == a)).isEmpty = true
    · rw [if_pos ha]
      have hda : d ≠ a := by
        intro h
        rw [h] at hne
        rw [ha] at hne
        cases hne
      have hds : d ∈ ds := by
        rcases List.mem_cons.mp hd with h | h
        · exact absurd h hda
        · exact h
      exact ih d hds hne
    · rw [if_neg ha]
      by_cases hda : d = a
      · subst hda
        simp [List.lookup]
      · have hds : d ∈ ds := by
          rcases List.mem_cons.mp hd with h | h
          · exact absurd h hda
          · exact h
        have : (d == a) = false := beq_false_of_ne hda
        simp only [List.lookup, this]
        exact ih d hds hne

/-- Looking up any key in an association list whose values are all empty
yields the empty list. -/
theorem lookup_all_nil {β : Type} (d : String) (b : β) :
    ∀ ps : List (String × β), (∀ q ∈ ps, q.2 = b) → ((ps.lookup d).getD b) = b := by
  intro ps
  induction ps with
  | nil => intro; rfl
  | cons q qs ih =>
    intro h
    rcases q with ⟨k, v⟩
    by_cases hk : d = k
    · subst hk
      simp only [List.lookup, beq_self_eq_true]
      exact h (d, v) (List.mem_cons_self _ _)
    · have : (d == k) = false := beq_false_of_ne hk
      simp only [List.lookup, this]
      exact ih (fun q hq => h q (List.mem_cons_of_mem _ hq))

/-- C4: under the table well-formedness the pivot and the scalar leader
read require (one row per driver and lap, one position-1 row per lap),
the gap list reported for a driver holding position 1 at some lap, with
a recorded cumulative time, contains the entry for that lap with gap 0,
and every entry it reports at that lap number carries gap 0. -/
theorem race_gaps_leader_zero (laps : List LapRow) (drivers : List String)
    (r : LapRow) (t : ℚ)
    (huniq : ∀ r1 ∈ laps, ∀ r2 ∈ laps,
      r1.driver = r2.driver → r1.lapNumber = r2.lapNumber → r1 = r2)
    (hlead : ∀ r1 ∈ laps, ∀ r2 ∈ laps,
      r1.position = some 1 → r2.position = some 1 → r1.lapNumber = r2.lapNumber → r1 = r2)
    (hr : r ∈ laps) (hpos : r.position = some 1) (ht : r.time = some t)
    (hd : r.driver ∈ drivers) :
    ((⟨r.lapNumber, some 0, r.position⟩ : GapEntry) ∈
        gapsFor (calculate_race_gaps laps drivers) r.driver) ∧
    ∀ e ∈ gapsFor (calculate_race_gaps laps drivers) r.driver,
      e.lap = r.lapNumber → e.gap = some 0 := by
  set sorted := sortByDriverLap laps with hsorted
  have hmem : ∀ x : LapRow, x ∈ sorted ↔ x ∈ laps := by
    intro x
    rw [hsorted]
    exact List.mem_insertionSort _
  have hleadrow : leaderRow sorted r.lapNumber = some r := by
    apply head_filter_unique
    · exact (hmem r).mpr hr
    · simp [hpos]
    · intro x hx hpx
      have hx1 : x.position = some 1 ∧ x.lapNumber = r.lapNumber := by
        simpa using hpx
      exact hlead x ((hmem x).mp hx) r hr hx1.1 hpos hx1.2
  have hrfilter : r ∈ sorted.filter (fun r2 => r2.driver == r.driver) :=
    List.mem_filter.mpr ⟨(hmem r).mpr hr, by simp⟩
  have hne : (sorted.filter (fun r2 => r2.driver == r.driver)).isEmpty = false := by
    cases hcase : (sorted.filter (fun r2 => r2.driver == r.driver)) with
    | nil => rw [hcase] at hrfilter; cases hrfilter
    | cons a l => rfl
  have hcalc : calculate_race_gaps laps drivers =
      drivers.filterMap (fun d2 =>
        if (sorted.filter (fun r2 => r2.driver == d2)).isEmpty then none
        else some (d2, driverGaps sorted d2)) := rfl
  have hlookup : (calculate_race_gaps laps drivers).lookup r.driver =
      some (driverGaps sorted r.driver) := by
    rw [hcalc]
    exact lookup_race_gaps sorted drivers r.driver hd hne
  have hgapsFor : gapsFor (calculate_race_gaps laps drivers) r.driver =
      driverGaps sorted r.driver := by
    rw [gapsFor, hlookup]
    rfl
  rw [hgapsFor]
  constructor
  · rw [driverGaps]
    apply List.mem_filterMap.mpr
    refine ⟨r, hrfilter, ?_⟩
    rw [ht, hleadrow]
    simp [ht]
  · intro e he hlap
    rw [driverGaps] at he
    obtain ⟨r2, hr2f, hf⟩ := List.mem_filterMap.mp he
    have hr2s : r2 ∈ sorted := (List.mem_filter.mp hr2f).1
    have hr2d : r2.driver = r.driver := by
      have := (List.mem_filter.mp hr2f).2
      simpa using this
    cases hr2t : r2.time with
    | none => rw [hr2t] at hf; cases hf
    | some t2 =>
      rw [hr2t] at hf
      cases hlr : leaderRow sorted r2.lapNumber with
      | none => rw [hlr] at hf; cases hf
      | some lr2 =>
        rw [hlr] at hf
        have hlapeq : r2.lapNumber = r.lapNumber := by
          have : e.lap = r2.lapNumber := by
            cases hf
            rfl
          rw [← this, hlap]
        have hr2r : r2 = r := huniq r2 ((hmem r2).mp hr2s) r hr hr2d hlapeq
        subst hr2r
        rw [hlapeq] at hlr
        rw [hleadrow] at hlr
        cases hlr
        cases hf
        rw [hr2t] at ht
        cases ht
        simp
        exact ⟨t, hr2t, sub_self t⟩

/-- C4 witness: the leader gap evaluated on the concrete two-driver,
one-lap table. -/
theorem race_gaps_leader_zero_witness :
    ((⟨exLeaderRow.lapNumber, some 0, exLeaderRow.position⟩ : GapEntry) ∈
        gapsFor (calculate_race_gaps [exLeaderRow, exChaserRow] ["VER", "HAM"])
          exLeaderRow.driver) ∧
    ∀ e ∈ gapsFor (calculate_race_gaps [exLeaderRow, exChaserRow] ["VER", "HAM"])
        exLeaderRow.driver,
      e.lap = exLeaderRow.lapNumber → e.gap = some 0 :=
  race_gaps_leader_zero [exLeaderRow, exChaserRow] ["VER", "HAM"] exLeaderRow 90
    (by decide) (by decide) (by decide) (by decide) (by decide) (by decide)

/-- C9: a LapTable in which no row holds position 1 (in particular the
empty table) yields an empty gap list for every requested driver, and
does so by returning a value rather than raising. -/
theorem race_gaps_leaderless_empty (laps : List LapRow) (drivers : List String)
    (hnolead : ∀ r ∈ laps, r.position ≠ some 1) :
    ∀ d ∈ drivers, gapsFor (calculate_race_gaps laps drivers) d = [] := by
  intro d _
  set sorted := sortByDriverLap laps with hsorted
  have hmem : ∀ x : LapRow, x ∈ sorted ↔ x ∈ laps := by
    intro x
    rw [hsorted]
    exact List.mem_insertionSort _
  have hleadnone : ∀ n : ℤ, leaderRow sorted n = none := by
    intro n
    rw [leaderRow]
    have : sorted.filter (fun r => r.position == some 1 && r.lapNumber == n) = [] := by
      apply List.filter_eq_nil_iff.mpr
      intro x hx
      have hxp : x.position ≠ some 1 := hnolead x ((hmem x).mp hx)
      simp [hxp]
    rw [this]
    rfl
  have hdg : ∀ d2 : String, driverGaps sorted d2 = [] := by
    intro d2
    rw [driverGaps]
    apply List.filterMap_eq_nil_iff.mpr
    intro x _
    cases hxt : x.time with
    | none => rfl
    | some t => rw [hleadnone x.lapNumber]
  have hcalc : calculate_race_gaps laps drivers =
      drivers.filterMap (fun d2 =>
        if (sorted.filter (fun r2 => r2.driver == d2)).isEmpty then none
        else some (d2, driverGaps sorted d2)) := rfl
  rw [gapsFor, hcalc]
  apply lookup_all_nil
  intro q hq
  obtain ⟨d2, _, hf⟩ := List.mem_filterMap.mp hq
  by_cases hc : (sorted.filter (fun r2 => r2.driver == d2)).isEmpty = true
  · rw [if_pos hc] at hf
    cases hf
  · rw [if_neg hc] at hf
    cases hf
    exact hdg d2

/-- C9 witness: the leaderless result evaluated on a concrete one-row
table with no position-1 entry. -/
theorem race_gaps_leaderless_empty_witness :
    gapsFor (calculate_race_gaps [exNoLeaderRow] ["VER"]) "VER" = [] :=
  race_gaps_leaderless_empty [exNoLeaderRow] ["VER"] (by decide) "VER" (by decide)

/-- Subtracting two mapped lists pointwise is mapping the pointwise
difference. -/
theorem zipWith_sub_map (f g : ℚ → ℚ) :
    ∀ l : List ℚ,
      List.zipWith (fun ta tb => ta - tb) (l.map f) (l.map g) = l.map (fun x => f x - g x) := by
  intro l
  induction l with
  | nil => rfl
  | cons x xs ih => simp [ih]

/-- The common ghost axis of the two 10 m example traces. -/
theorem commonAxis_example : commonAxis ghostTraceA ghostTraceB = [0, 5] := by
  have h2 : (Rat.ceil ((10 : ℚ) / 5)).toNat = 2 := by
    norm_num [Rat.ceil]
    rfl
  have hmin : min (listMax (ghostTraceA.samples.map (·.1)))
      (listMax (ghostTraceB.samples.map (·.1))) = 10 := by
    norm_num [ghostTraceA, ghostTraceB, listMax]
  rw [commonAxis, hmin, arange5, if_neg (by norm_num), h2]
  simp [List.range_succ]

/-- C1 counterexample: on two concrete traces where driver A needs 2 s
and driver B needs 1 s for the same 10 m, the computed delta at 5 m is
+1/2, while time_B minus time_A there is -1/2: the code computes
time_A minus time_B, not time_B minus time_A as claimed. -/
theorem ghost_delta_sign_counterexample :
    calculate_ghost_delta ghostTraceA ghostTraceB =
      some { distance := [0, 5], delta := [0, 1/2] } ∧
    interp1dLin ghostTraceB.samples 5 - interp1dLin ghostTraceA.samples 5 = -(1/2) := by
  constructor
  · rw [calculate_ghost_delta]
    have hc : (ghostTraceA.hasDistance && ghostTraceB.hasDistance) = true := rfl
    rw [if_pos hc, commonAxis_example]
    norm_num [interp1dLin, sortByDist, List.insertionSort, List.orderedInsert,
      interp1devalSorted, ghostTraceA, ghostTraceB, GhostDelta.mk.injEq]
  · norm_num [interp1dLin, sortByDist, List.insertionSort, List.orderedInsert,
      interp1devalSorted, ghostTraceA, ghostTraceB]

/-- C1 amended: for two traces that both carry the distance channel,
the ghost-delta computation evaluates both distance-to-time interpolants
on the common distance axis and returns delta = time_A minus time_B
pointwise, so a positive delta means driver A is slower there. -/
theorem ghost_delta_pointwise (a b : TelemetryTrace)
    (ha : a.hasDistance = true) (hb : b.hasDistance = true) :
    calculate_ghost_delta a b = some
      { distance := commonAxis a b
        delta := (commonAxis a b).map
          (fun d => interp1dLin a.samples d - interp1dLin b.samples d) } := by
  rw [calculate_ghost_delta]
  have hc : (a.hasDistance && b.hasDistance) = true := by rw [ha, hb]; rfl
  rw [if_pos hc]
  simp only []
  rw [zipWith_sub_map]

/-- C1 amended witness: the pointwise form evaluated on the two concrete
example traces. -/
theorem ghost_delta_pointwise_witness :
    calculate_ghost_delta ghostTraceA ghostTraceB = some
      { distance := commonAxis ghostTraceA ghostTraceB
        delta := (commonAxis ghostTraceA ghostTraceB).map
          (fun d => interp1dLin ghostTraceA.samples d - interp1dLin ghostTraceB.samples d) } :=
  ghost_delta_pointwise ghostTraceA ghostTraceB rfl rfl

/-- C5 counterexample: on a concrete table with no clean lap the
degradation computation returns the bare empty mapping, without the
SOFT key the claimed 5-key wire shape would carry. -/
theorem tyre_deg_empty_shape_counterexample :
    calculate_tyre_degradation [exDirtyLap] = [] ∧
    (calculate_tyre_degradation [exDirtyLap]).lookup "SOFT" ≠ some [] := by
  constructor
  · rfl
  · intro h
    cases h

/-- C5 amended: when the table holds no clean lap, the tyre-degradation
computation returns the empty mapping carrying no compound keys at all,
by returning a value rather than raising. -/
theorem tyre_deg_no_clean_empty (laps : List LapRow) (h : cleanLaps laps = []) :
    calculate_tyre_degradation laps = [] := by
  rw [calculate_tyre_degradation, h]
  rfl

/-- C5 amended witness: the empty mapping on the concrete dirty-lap
table. -/
theorem tyre_deg_no_clean_empty_witness :
    calculate_tyre_degradation [exDirtyLap] = [] :=
  tyre_deg_no_clean_empty [exDirtyLap] (by decide)

/-- C8: the track evolution rate is the magnitude of the global
Theil-Sen slope of the whole field, fuel-corrected time against lap
number, when that slope is negative and zero otherwise; every clean lap
receives lap_number times that rate on top of its fuel-corrected time;
and every reported degradation entry is the Theil-Sen slope over its
driver-and-compound laps of exactly those fully corrected times against
tyre life. -/
theorem tyre_deg_track_evolution (laps : List LapRow) :
    (trackEvoPerLap laps =
      (if theilSlope ((cleanLaps laps).map (fun r => ((r.lapNumber : ℚ), fuelCorrectedTime r))) < 0
       then -theilSlope ((cleanLaps laps).map (fun r => ((r.lapNumber : ℚ), fuelCorrectedTime r)))
       else 0)) ∧
    (∀ r ∈ cleanLaps laps,
      fullyCorrectedTime laps r = fuelCorrectedTime r + (r.lapNumber : ℚ) * trackEvoPerLap laps) ∧
    (∀ comp entries, (comp, entries) ∈ calculate_tyre_degradation laps →
      ∀ e ∈ entries, ∃ d : String,
        e.driver = d ∧
        e.deg_per_lap = theilSlope
          (((cleanLaps laps).filter (fun r => r.driver == d && r.compound == comp)).map
            (fun r =>
              (r.tyreLife, fuelCorrectedTime r + (r.lapNumber : ℚ) * trackEvoPerLap laps)))) := by
  refine ⟨?_, fun r _ => rfl, ?_⟩
  · show (if globalSlope laps < 0 then |globalSlope laps| else 0) =
      (if globalSlope laps < 0 then -globalSlope laps else 0)
    by_cases h : globalSlope laps < 0
    · rw [if_pos h, if_pos h, abs_of_neg h]
    · rw [if_neg h, if_neg h]
  · intro comp entries hmem e he
    rw [calculate_tyre_degradation] at hmem
    simp only [] at hmem
    by_cases hclean : (cleanLaps laps).isEmpty = true
    · rw [if_pos hclean] at hmem
      cases hmem
    · rw [if_neg hclean] at hmem
      obtain ⟨comp2, -, heq⟩ := List.mem_map.mp hmem
      cases heq
      rw [sortByDeg] at he
      have he2 : e ∈ (uniqueOrder ((cleanLaps laps).map (·.driver))).filterMap
          (degEntryFor laps comp) := (List.mem_insertionSort _).mp he
      obtain ⟨d, _, hf⟩ := List.mem_filterMap.mp he2
      rw [degEntryFor] at hf
      by_cases hlen :
          ((cleanLaps laps).filter (fun r => r.driver == d && r.compound == comp)).length < 4
      · rw [if_pos hlen] at hf
        cases hf
      · rw [if_neg hlen] at hf
        have he3 := Option.some.inj hf
        refine ⟨d, ?_, ?_⟩
        · rw [← he3]
        · rw [← he3]
          rfl

/-- C8 witness: the track-evolution identity evaluated on the concrete
two-driver table. -/
theorem tyre_deg_track_evolution_witness :
    trackEvoPerLap [exLeaderRow, exChaserRow] =
      (if theilSlope ((cleanLaps [exLeaderRow, exChaserRow]).map
          (fun r => ((r.lapNumber : ℚ), fuelCorrectedTime r))) < 0
       then -theilSlope ((cleanLaps [exLeaderRow, exChaserRow]).map
          (fun r => ((r.lapNumber : ℚ), fuelCorrectedTime r)))
       else 0) :=
  (tyre_deg_track_evolution [exLeaderRow, exChaserRow]).1

/-- C2 counterexample: on a concrete driver with a valid fastest lap and
usable telemetry that lacks the X/Y channels, the whole result is the
error marker: the timing outputs theoretical_best, actual_best and diff
are not returned. -/
theorem theoretical_best_gps_counterexample :
    get_theoretical_best_lap "VER" [exLapNoXY] (some exLapNoXY) = .gpsError ∧
    TBResult.gpsError.hasTimingOutputs = false := by
  constructor
  · rfl
  · rfl

/-- C2 amended: when the reference telemetry lacks the X channel, the
computation returns the dedicated No-GPS-data error value, a condition
distinct from the empty result that missing timing data produces, but it
does not return the timing outputs. -/
theorem theoretical_best_gps_distinct (driver : String) (d_laps : List TBLap)
    (f : TBLap) (lt : ℚ) (rt : Telemetry)
    (hlt : f.lapTime = some lt) (htel : f.telemetry = some rt)
    (hvalid : (validTelemetries d_laps).isEmpty = false) (hxy : rt.hasXY = false) :
    get_theoretical_best_lap driver d_laps (some f) = .gpsError ∧
    TBResult.gpsError ≠ TBResult.empty ∧
    TBResult.gpsError.hasTimingOutputs = false := by
  refine ⟨?_, fun h => TBResult.noConfusion h, rfl⟩
  simp [get_theoretical_best_lap, hlt, htel, hvalid, hxy]

/-- C2 amended witness: the distinct error value on the concrete
no-GPS lap. -/
theorem theoretical_best_gps_distinct_witness :
    get_theoretical_best_lap "VER" [exLapNoXY] (some exLapNoXY) = .gpsError ∧
    TBResult.gpsError ≠ TBResult.empty ∧
    TBResult.gpsError.hasTimingOutputs = false :=
  theoretical_best_gps_distinct "VER" [exLapNoXY] exLapNoXY 10 exTelNoXY
    rfl rfl rfl rfl

/-- np.diff shortens a list by one. -/
theorem diffList_length : ∀ l : List ℚ, (diffList l).length = l.length - 1
  | [] => rfl
  | [_] => rfl
  | x :: y :: rest => by
    rw [diffList, List.length_cons, diffList_length (y :: rest)]
    simp

/-- A sector row over the 26 boundaries has 25 entries. -/
theorem sectorRow_length (bounds : List ℚ) (pts : List (ℚ × ℚ)) :
    (sectorRow bounds pts).length = bounds.length - 1 := by
  rw [sectorRow, diffList_length, List.length_map]

/-- There are 26 mini-sector boundaries. -/
theorem tbBoundaries_length (rt : Telemetry) : (tbBoundaries rt).length = 26 := by
  rw [tbBoundaries, List.length_map, List.length_range]

/-- Pointwise minima of equally long lists sum below the left list. -/
theorem sum_zipWith_min_le_left :
    ∀ a b : List ℚ, b.length = a.length → (List.zipWith min a b).sum ≤ a.sum
  | [], _, _ => by simp
  | _ :: _, [], h => by cases h
  | x :: xs, y :: ys, h => by
    rw [List.zipWith_cons_cons, List.sum_cons, List.sum_cons]
    have hlen : ys.length = xs.length := by
      simpa using h
    exact add_le_add (min_le_left x y) (sum_zipWith_min_le_left xs ys hlen)

/-- Pointwise minima of equally long lists sum below the right list. -/
theorem sum_zipWith_min_le_right :
    ∀ a b : List ℚ, b.length = a.length → (List.zipWith min a b).sum ≤ b.sum
  | [], [], _ => by simp
  | [], _ :: _, h => by cases h
  | _ :: _, [], h => by cases h
  | x :: xs, y :: ys, h => by
    rw [List.zipWith_cons_cons, List.sum_cons, List.sum_cons]
    have hlen : ys.length = xs.length := by
      simpa using h
    exact add_le_add (min_le_right x y) (sum_zipWith_min_le_right xs ys hlen)

/-- Folding pointwise minima over rows of one common length bounds the
sum by the accumulator and by every row. -/
theorem foldl_zipWith_min_le (n : ℕ) :
    ∀ (rs : List (List ℚ)) (acc : List ℚ), acc.length = n → (∀ x ∈ rs, x.length = n) →
      (rs.foldl (List.zipWith min) acc).sum ≤ acc.sum ∧
      ∀ r ∈ rs, (rs.foldl (List.zipWith min) acc).sum ≤ r.sum := by
  intro rs
  induction rs with
  | nil =>
    intro acc _ _
    exact ⟨le_refl _, fun r hr => absurd hr (List.not_mem_nil r)⟩
  | cons x rs ih =>
    intro acc hacc hall
    have hx : x.length = n := hall x (List.mem_cons_self x rs)
    have hxa : x.length = acc.length := by rw [hx, hacc]
    have hzlen : (List.zipWith min acc x).length = n := by
      rw [List.length_zipWith, hacc, hx, min_self]
    have hrest : ∀ y ∈ rs, y.length = n := fun y hy => hall y (List.mem_cons_of_mem x hy)
    have hmain := ih (List.zipWith min acc x) hzlen hrest
    rw [List.foldl_cons]
    constructor
    · exact le_trans hmain.1 (sum_zipWith_min_le_left acc x hxa)
    · intro r hr
      rcases List.mem_cons.mp hr with hr | hr
      · subst hr
        exact le_trans hmain.1 (sum_zipWith_min_le_right acc r hxa)
      · exact hmain.2 r hr

/-- The sum of the column-wise minima of a matrix of rows of one common
length is at most the sum of any row. -/
theorem sum_colMin_le (rows : List (List ℚ)) (r : List ℚ) (n : ℕ)
    (hr : r ∈ rows) (hlen : ∀ x ∈ rows, x.length = n) :
    (colMin rows).sum ≤ r.sum := by
  cases rows with
  | nil => cases hr
  | cons a rs =>
    rw [colMin]
    have ha : a.length = n := hlen a (List.mem_cons_self a rs)
    have hrest : ∀ y ∈ rs, y.length = n := fun y hy => hlen y (List.mem_cons_of_mem a hy)
    have hmain := foldl_zipWith_min_le n rs a ha hrest
    rcases List.mem_cons.mp hr with hcase | hcase
    · subst hcase
      exact hmain.1
    · exact hmain.2 r hcase

/-- The reference telemetry, once non-empty and retrievable, is one of
the usable telemetries the sector matrix is built from. -/
theorem ref_mem_validTelemetries (d_laps : List TBLap) (f : TBLap) (rt : Telemetry)
    (hf : f ∈ d_laps) (htel : f.telemetry = some rt) (hne : rt.samples ≠ []) :
    sortByDist (telPairs rt) ∈ validTelemetries d_laps := by
  rw [validTelemetries]
  apply List.mem_filterMap.mpr
  refine ⟨f, hf, ?_⟩
  rw [htel, Option.some_bind]
  have hempty : rt.samples.isEmpty = false := by
    cases hcase : rt.samples with
    | nil => exact absurd hcase hne
    | cons a l => rfl
  rw [if_neg (by rw [hempty]; intro h; cases h)]

/-- C3: for a reference lap belonging to the usable laps, with
non-empty, distance-sorted telemetry, the theoretical best lap time
(the sum of the column-wise per-sector minima over all usable laps,
which include the reference lap) is at most the actual best lap time of
the reference lap, and any full result returned by the computation
satisfies the same inequality between its timing outputs. -/
theorem theoretical_best_le_actual (d_laps : List TBLap) (f : TBLap) (rt : Telemetry)
    (hf : f ∈ d_laps) (htel : f.telemetry = some rt) (hne : rt.samples ≠ [])
    (hsorted : List.Sorted (fun s1 s2 : TelSample => s1.dist ≤ s2.dist) rt.samples) :
    theoreticalTime d_laps rt ≤ actualTime rt ∧
    ∀ (d : String) (t a df : ℚ) (segs : List TBSegment),
      get_theoretical_best_lap d d_laps (some f) = .ok d t a df segs → t ≤ a := by
  have hpairs : List.Sorted (fun p q : ℚ × ℚ => p.1 ≤ q.1) (telPairs rt) := by
    rw [telPairs]
    exact List.Pairwise.map (fun s : TelSample => (s.dist, s.time)) (fun a b h => h) hsorted
  have hid : sortByDist (telPairs rt) = telPairs rt := by
    rw [sortByDist]
    exact List.Sorted.insertionSort_eq hpairs
  have hmemv : telPairs rt ∈ validTelemetries d_laps :=
    hid ▸ ref_mem_validTelemetries d_laps f rt hf htel hne
  have hrow : sectorRow (tbBoundaries rt) (telPairs rt) ∈
      (validTelemetries d_laps).map (sectorRow (tbBoundaries rt)) :=
    List.mem_map_of_mem _ hmemv
  have hlens : ∀ x ∈ (validTelemetries d_laps).map (sectorRow (tbBoundaries rt)),
      x.length = 25 := by
    intro x hx
    obtain ⟨pts, -, rfl⟩ := List.mem_map.mp hx
    rw [sectorRow_length, tbBoundaries_length]
  have hmain : theoreticalTime d_laps rt ≤ actualTime rt := by
    rw [theoreticalTime, actualTime, refSectorTimes]
    exact sum_colMin_le _ _ 25 hrow hlens
  refine ⟨hmain, ?_⟩
  intro d t a df segs hok
  cases hlt : f.lapTime with
  | none =>
    rw [get_theoretical_best_lap, hlt] at hok
    cases hok
  | some lt =>
    simp only [get_theoretical_best_lap, hlt, htel] at hok
    by_cases hv : (validTelemetries d_laps).isEmpty = true
    · rw [if_pos hv] at hok
      cases hok
    · rw [if_neg hv] at hok
      by_cases hxy : rt.hasXY = true
      · rw [if_pos hxy] at hok
        injection hok with h1 h2 h3 h4 h5
        rw [← h2, ← h3]
        exact hmain
      · rw [if_neg hxy] at hok
        cases hok

/-- C3 witness: the inequality evaluated on one concrete lap whose
telemetry covers 100 m in 10 s. -/
theorem theoretical_best_le_actual_witness :
    theoreticalTime [exLapXY] exTelXY ≤ actualTime exTelXY ∧
    ∀ (d : String) (t a df : ℚ) (segs : List TBSegment),
      get_theoretical_best_lap d [exLapXY] (some exLapXY) = .ok d t a df segs → t ≤ a :=
  theoretical_best_le_actual [exLapXY] exLapXY exTelXY
    (List.mem_cons_self _ _) rfl (by decide) (by decide)


/-- C6: the fuel correction excludes every lap without a recorded
duration or flagged pit-in/pit-out, computes remaining_fuel,
fuel_time_effect and corrected_time by the stated formulas for each
remaining lap, and on the concrete scenario (start fuel 110, burn 1.8,
loss 0.035, lap 1 at 90.0 s) yields remaining fuel 108.2, fuel effect
3.787 and corrected time 86.213 exactly, hence within 0.001. -/
theorem fuel_correction_formula :
    (∀ (laps : List LapRow) (sf br tl : ℚ),
      calculate_fuel_correction laps sf br tl =
        (laps.filter (fun r => r.lapTime.isSome && r.pitInTime.isNone && r.pitOutTime.isNone)).map
          (fun r =>
            { lap := r.lapNumber
              actual := r.lapTime.getD 0
              corrected := r.lapTime.getD 0 - max 0 (sf - (r.lapNumber : ℚ) * br) * tl
              fuelLoad := max 0 (sf - (r.lapNumber : ℚ) * br) })) ∧
    calculate_fuel_correction [demoFuelLap] 110 (9/5) (7/200) =
      [{ lap := 1, actual := 90, corrected := 86213/1000, fuelLoad := 541/5 }] := by
  constructor
  · intro laps sf br tl
    rfl
  · norm_num [calculate_fuel_correction, validFuelLaps, demoFuelLap, fuelEntry,
      FuelEntry.mk.injEq]

/-- C7: with non-negative calibration constants, every reported entry
has corrected time at most the actual time and a non-negative fuel
load, and the fuel load of the entries is non-increasing in lap
number. -/
theorem fuel_correction_bounds (laps : List LapRow) (sf br tl : ℚ)
    (_hsf : 0 ≤ sf) (hbr : 0 ≤ br) (htl : 0 ≤ tl) :
    (∀ e ∈ calculate_fuel_correction laps sf br tl, e.corrected ≤ e.actual ∧ 0 ≤ e.fuelLoad) ∧
    (∀ r1 ∈ validFuelLaps laps, ∀ r2 ∈ validFuelLaps laps, r1.lapNumber ≤ r2.lapNumber →
      (fuelEntry sf br tl r2).fuelLoad ≤ (fuelEntry sf br tl r1).fuelLoad) := by
  constructor
  · intro e he
    simp only [calculate_fuel_correction, List.mem_map] at he
    obtain ⟨r, -, rfl⟩ := he
    have h1 : (0 : ℚ) ≤ max 0 (sf - (r.lapNumber : ℚ) * br) := le_max_left 0 _
    have h2 : (0 : ℚ) ≤ max 0 (sf - (r.lapNumber : ℚ) * br) * tl := mul_nonneg h1 htl
    constructor
    · simp only [fuelEntry]
      linarith
    · simpa only [fuelEntry] using h1
  · intro r1 _ r2 _ h12
    have hc : (r1.lapNumber : ℚ) ≤ (r2.lapNumber : ℚ) := by exact_mod_cast h12
    have hm : (r1.lapNumber : ℚ) * br ≤ (r2.lapNumber : ℚ) * br :=
      mul_le_mul_of_nonneg_right hc hbr
    simp only [fuelEntry]
    exact max_le_max le_rfl (by linarith)

/-- C7 witness: the bounds evaluated on the concrete one-lap table with
the default calibration constants. -/
theorem fuel_correction_bounds_witness :
    (∀ e ∈ calculate_fuel_correction [demoFuelLap] 110 (9/5) (7/200),
      e.corrected ≤ e.actual ∧ 0 ≤ e.fuelLoad) ∧
    (∀ r1 ∈ validFuelLaps [demoFuelLap], ∀ r2 ∈ validFuelLaps [demoFuelLap],
      r1.lapNumber ≤ r2.lapNumber →
      (fuelEntry 110 (9/5) (7/200) r2).fuelLoad ≤ (fuelEntry 110 (9/5) (7/200) r1).fuelLoad) :=
  fuel_correction_bounds [demoFuelLap] 110 (9/5) (7/200)
    (by norm_num) (by norm_num) (by norm_num)

/-- C10: once lap_number times burn_rate reaches start_fuel for an
included lap, its reported entry carries fuel load exactly 0 and a
corrected time equal to the actual time, and with a non-negative burn
rate the same holds for every included lap with a lap number at least as
large. -/
theorem fuel_correction_clamp (laps : List LapRow) (sf br tl : ℚ) (r : LapRow)
    (hbr : 0 ≤ br) (hr : r ∈ validFuelLaps laps) (hclamp : sf ≤ (r.lapNumber : ℚ) * br) :
    fuelEntry sf br tl r ∈ calculate_fuel_correction laps sf br tl ∧
    (fuelEntry sf br tl r).fuelLoad = 0 ∧
    (fuelEntry sf br tl r).corrected = (fuelEntry sf br tl r).actual ∧
    (∀ r2 ∈ validFuelLaps laps, r.lapNumber ≤ r2.lapNumber →
      (fuelEntry sf br tl r2).fuelLoad = 0 ∧
      (fuelEntry sf br tl r2).corrected = (fuelEntry sf br tl r2).actual) := by
  have key : ∀ r2 : LapRow, sf ≤ (r2.lapNumber : ℚ) * br →
      (fuelEntry sf br tl r2).fuelLoad = 0 ∧
      (fuelEntry sf br tl r2).corrected = (fuelEntry sf br tl r2).actual := by
    intro r2 h2
    have hz : max 0 (sf - (r2.lapNumber : ℚ) * br) = 0 := max_eq_left (by linarith)
    constructor
    · simpa only [fuelEntry] using hz
    · simp only [fuelEntry, hz, zero_mul, sub_zero]
  refine ⟨List.mem_map_of_mem _ hr, (key r hclamp).1, (key r hclamp).2, ?_⟩
  intro r2 _ h12
  have hc : (r.lapNumber : ℚ) ≤ (r2.lapNumber : ℚ) := by exact_mod_cast h12
  exact key r2 (le_trans hclamp (mul_le_mul_of_nonneg_right hc hbr))

/-- C10 witness: the clamp evaluated at lap 100 of the concrete table
with the default calibration constants. -/
theorem fuel_correction_clamp_witness :
    fuelEntry 110 (9/5) (7/200) demoClampLap ∈
      calculate_fuel_correction [demoClampLap] 110 (9/5) (7/200) ∧
    (fuelEntry 110 (9/5) (7/200) demoClampLap).fuelLoad = 0 ∧
    (fuelEntry 110 (9/5) (7/200) demoClampLap).corrected =
      (fuelEntry 110 (9/5) (7/200) demoClampLap).actual ∧
    (∀ r2 ∈ validFuelLaps [demoClampLap], demoClampLap.lapNumber ≤ r2.lapNumber →
      (fuelEntry 110 (9/5) (7/200) r2).fuelLoad = 0 ∧
      (fuelEntry 110 (9/5) (7/200) r2).corrected = (fuelEntry 110 (9/5) (7/200) r2).actual) :=
  fuel_correction_clamp [demoClampLap] 110 (9/5) (7/200) demoClampLap
    (by norm_num) (by decide) (by norm_num [demoClampLap])

end RaceEngineer
